import Mathlib

/-!
Shallow embedding of `src/node/custom_llm/custom_llm.js`, the Express server
exposing three SSE chat-completion endpoints
(`/chat/completions`, `/rag/chat/completions`, `/audio/chat/completions`).

Machine-irrelevant parts (logging, CORS, the HTTP listener) are omitted.
The upstream OpenAI client is a parameter: a function from the constructed
upstream request to an outcome (open failure, or a list of delivered chunks
followed by clean end or a mid-stream error).  A response is either a plain
HTTP JSON error (the pre-stream path) or a list of SSE writes.
-/

namespace CustomLLM

/-- A chat message, as handled by the server.  The relay never inspects
`content` beyond passing it through, so plain strings suffice. -/
structure Message where
  role : String
  content : String
deriving Repr, DecidableEq

/-- The request body as destructured at lines 55-65 / 163-173 / 295-305 of
`custom_llm.js`.  `none` models an absent (JS `undefined`) field.  Fields the
handlers destructure but never use (`modalities`, `audio`, `stream_options`)
are omitted. -/
structure CompletionRequest where
  model : Option String
  messages : Option (List Message)
  tools : Option (List String)
  tool_choice : Option String
  response_format : Option String
  stream : Option Bool
deriving Repr, DecidableEq

/-- JS truthiness of a possibly-absent array value: `undefined` is falsy,
every array — including the empty array — is truthy. -/
def truthyArr {α : Type} (o : Option (List α)) : Bool :=
  o.isSome

/-- JS truthiness of a possibly-absent string value: `undefined` and the
empty string are falsy, every other string is truthy. -/
def truthyStr (o : Option String) : Bool :=
  match o with
  | none => false
  | some s => !s.isEmpty

/-- The validation performed at the top of every handler
(lines 67-77, 175-185, 307-317 — the three copies are verbatim identical):
reject when `messages` is absent, then reject when the destructured `stream`
(defaulting to `true`, line 63/171/303) is falsy.  Returns the early HTTP
error, or `none` when validation passes. -/
def validateRequest (req : CompletionRequest) : Option (Nat × String) :=
  match req.messages with
  | none => some (400, "Missing messages in request body")
  | some _ =>
    if !(req.stream.getD true) then some (400, "chat completions require streaming")
    else none

/-- The argument object of `openai.chat.completions.create` (lines 85-92 and
219-226): `model` defaulted at destructuring, the given messages,
`tools: tools ? tools : undefined`, `tool_choice: tools && tool_choice ?
tool_choice : undefined` (JS truthiness), `response_format` passed through,
and `stream: true` unconditionally. -/
structure UpstreamRequest where
  model : String
  messages : List Message
  tools : Option (List String)
  tool_choice : Option String
  response_format : Option String
  stream : Bool
deriving Repr, DecidableEq

def upstreamCallArgs (defaultModel : String) (req : CompletionRequest)
    (messages : List Message) : UpstreamRequest where
  model := req.model.getD defaultModel
  messages := messages
  tools := if truthyArr req.tools then req.tools else none
  tool_choice := if truthyArr req.tools && truthyStr req.tool_choice then req.tool_choice else none
  response_format := req.response_format
  stream := true

/-- A streamed chunk is opaque to the relay; we identify it with its JSON
serialization (the handlers only ever `JSON.stringify` it). -/
abbrev Chunk := String

/-- Behaviour of the upstream streaming call for one request:
either `create` itself rejects (`openError`), or a stream is obtained that
delivers `chunks` in order and then either ends cleanly (`err = none`) or
fails (`err = some msg`). -/
inductive UpstreamOutcome where
  | openError (msg : String)
  | streamResult (chunks : List Chunk) (err : Option String)
deriving Repr, DecidableEq

/-- One SSE write performed by the `/chat/completions` handler. -/
inductive SSEWrite where
  | data (chunk : Chunk)
  | errorEvent (msg : String)
  | done
deriving Repr, DecidableEq

/-- The on-the-wire frame of one SSE write: lines 97, 111 and 101/112 write
the literal prefix, the payload, and a blank line. A literal brace is
written with an escape. -/
def sseFrame : SSEWrite → String
  | .data c => "data: " ++ c ++ "\n\n"
  | .errorEvent msg => "data: \x7b\x22error\x22:\x22" ++ msg ++ "\x22\x7d\n\n"
  | .done => "data: [DONE]\n\n"

/-- Result of a handler: the pre-stream HTTP JSON error path (no SSE headers
flushed, body `\x7bdetail: ...\x7d`), or an SSE response given by its ordered
list of writes. -/
inductive HandlerResponse where
  | httpError (status : Nat) (detail : String)
  | sse (events : List SSEWrite)
deriving Repr, DecidableEq

/-- Lines 94-114: the forwarding loop and the catch block.  Express flushes
headers on the first `res.write`, so `res.headersSent` is true exactly when
at least one write has happened.  Hence: a failure of `create` itself, or a
stream failure before the first chunk, reaches the catch with
`headersSent = false` and returns HTTP 500 with a JSON detail (line 106-109);
a failure after at least one forwarded chunk appends the in-band error event
and the sentinel (lines 111-113). -/
def relayOutcome : UpstreamOutcome → HandlerResponse
  | .openError msg => .httpError 500 msg
  | .streamResult chunks none => .sse (chunks.map .data ++ [.done])
  | .streamResult chunks (some msg) =>
    if chunks.isEmpty then .httpError 500 msg
    else .sse (chunks.map .data ++ [.errorEvent msg, .done])

/-- The `POST /chat/completions` handler (lines 51-115): validate, then open
the upstream call built by `upstreamCallArgs` with default model
`gpt-4o-mini` and relay its outcome. -/
def chatCompletions (req : CompletionRequest)
    (u : UpstreamRequest → UpstreamOutcome) : HandlerResponse :=
  match validateRequest req with
  | some (s, d) => .httpError s d
  | none =>
    relayOutcome (u (upstreamCallArgs "gpt-4o-mini" req (req.messages.getD [])))

/-- `performRagRetrieval` (lines 122-129): the stub retriever returns a
constant string regardless of the messages. -/
def performRagRetrieval (_messages : List Message) : String :=
  "This is relevant content retrieved from the knowledge base."

/-- `refactMessages` (lines 137-149): prepend one new system message whose
content embeds the retrieved context, then spread the original messages. -/
def refactMessages (context : String) (messages : List Message) : List Message :=
  { role := "system"
    content := "You have access to the following knowledge: " ++ context
      ++ ". Answer questions using this data." } :: messages

/-- `waitingMessages` (lines 152-156). -/
def waitingMessages : List String :=
  ["Just a moment, I\x27m thinking...",
   "Let me think about that for a second...",
   "Good question, let me find out..."]

/-- The waiting-message chunk built at lines 193-208: fixed id
`waiting_msg`, one choice with an assistant-role delta whose content is
`waitingMessages[Math.floor(Math.random() * 3)]` and `finish_reason: null`.
The random index is the parameter `pick : Fin 3`. -/
structure WaitingMessage where
  id : String
  role : String
  content : String
  finish_reason : Option String
deriving Repr, DecidableEq

def waitingMessage (pick : Fin 3) : WaitingMessage where
  id := "waiting_msg"
  role := "assistant"
  content := waitingMessages.getD pick.val ""
  finish_reason := none

/-- One SSE write performed by the `/rag/chat/completions` handler. -/
inductive RagWrite where
  | waiting (w : WaitingMessage)
  | chunkData (c : Chunk)
  | errorEvent (msg : String)
  | done
deriving Repr, DecidableEq

/-- One observable step of the RAG handler, in program order: an SSE write,
the call into `performRagRetrieval` (line 213), or the opening of the
upstream completion call (lines 219-226).  Recording the calls in the trace
lets ordering claims (waiting message first) be stated. -/
inductive RagStep where
  | sseWrite (w : RagWrite)
  | retrieve (messages : List Message)
  | upstreamOpen (ur : UpstreamRequest)
deriving Repr, DecidableEq

inductive RagResponse where
  | httpError (status : Nat) (detail : String)
  | sse (trace : List RagStep)
deriving Repr, DecidableEq

/-- The `POST /rag/chat/completions` handler (lines 159-249): validate
(identically to `/chat/completions`); write the waiting message (line 210);
call the retriever (line 213); build the augmented messages with
`refactMessages` (line 216); open the upstream call with default model
`gpt-4` (lines 219-226) and forward its chunks, then the sentinel.  Because
the waiting message has already been written, `res.headersSent` is true in
the catch block, so every failure after validation is emitted in-band
(lines 245-247), never as an HTTP status. -/
def ragChatCompletions (req : CompletionRequest) (pick : Fin 3)
    (u : UpstreamRequest → UpstreamOutcome) : RagResponse :=
  match validateRequest req with
  | some (s, d) => .httpError s d
  | none =>
    let messages := req.messages.getD []
    let ragMessages := refactMessages (performRagRetrieval messages) messages
    let ur := upstreamCallArgs "gpt-4" req ragMessages
    .sse (.sseWrite (.waiting (waitingMessage pick)) :: .retrieve messages ::
      .upstreamOpen ur ::
      match u ur with
      | .openError msg => [.sseWrite (.errorEvent msg), .sseWrite .done]
      | .streamResult chunks none =>
        chunks.map (fun c => .sseWrite (.chunkData c)) ++ [.sseWrite .done]
      | .streamResult chunks (some msg) =>
        chunks.map (fun c => .sseWrite (.chunkData c))
          ++ [.sseWrite (.errorEvent msg), .sseWrite .done])

/-- The chunk size computed at line 276:
`Math.floor(sampleRate * 2 * (durationMs / 1000))`.  Over the values the
claims use the float computation is exact (for the handler's fixed
`16000, 40` it is exactly `1280.0`; for a zero sample rate it is `0.0`), so
flooring Nat division models it. -/
def chunkSizeOf (sampleRate durationMs : Nat) : Nat :=
  sampleRate * 2 * durationMs / 1000

/-- The `for` loop of `readPCMFile` (lines 279-281), fuelled: state is the
index `i` and the accumulated `chunks`; while `i < content.length` it pushes
`content.slice(i, i + chunkSize)` and advances `i` by `chunkSize`.  `none`
means the loop has not finished within `fuel` iterations — with
`chunkSize = 0` and nonempty content it never does. -/
def pcmChunkLoop (content : List Nat) (chunkSize : Nat) :
    Nat → Nat → List (List Nat) → Option (List (List Nat))
  | 0, _, _ => none
  | fuel + 1, i, acc =>
    if i < content.length then
      pcmChunkLoop content chunkSize fuel (i + chunkSize)
        (acc ++ [(content.drop i).take chunkSize])
    else some acc

/-- `readPCMFile` (lines 273-288) after a successful file read, returning
the chunk list.  `content.length + 1` iterations always suffice when the
chunk size is positive (each iteration advances `i` by at least 1), so
`none` arises exactly when the source loop diverges. -/
def readPCMFileChunks (content : List Nat) (sampleRate durationMs : Nat) :
    Option (List (List Nat)) :=
  pcmChunkLoop content (chunkSizeOf sampleRate durationMs) (content.length + 1) 0 []

/-- Structural reformulation of the chunking loop for a positive chunk size:
split off `C`-byte prefixes until the list is exhausted.  (The `C = 0` guard
only makes the recursion total; `pcmChunkLoop_eq_chunksOf` relates it to the
source loop under `0 < C`, where the guard value is irrelevant.) -/
def chunksOf (C : Nat) (l : List Nat) : List (List Nat) :=
  if h : C = 0 ∨ l = [] then []
  else
    have : (l.drop C).length < l.length := by
      rcases Nat.eq_zero_or_pos C with hC | hC
      · exact absurd (Or.inl hC) h
      · have hl : l ≠ [] := fun he => h (Or.inr he)
        have : 0 < l.length := List.length_pos.mpr hl
        simp [List.length_drop]
        omega
    l.take C :: chunksOf C (l.drop C)
termination_by l.length

/-- The standard base64 alphabet used by Node `Buffer.toString` with
encoding `base64` (line 373: `chunk.toString` with that encoding). -/
def b64Alphabet : List Char :=
  "ABCDEFGHIJKLMNOPQRSTUVWXYZabcdefghijklmnopqrstuvwxyz0123456789+/".toList

def b64Char (n : Nat) : Char :=
  b64Alphabet.getD n '?'

def b64Index (c : Char) : Nat :=
  (b64Alphabet.indexOf c)

/-- Standard base64 encoding of a byte list, with `=` padding, as produced
by Node for a `Buffer`. -/
def base64Encode : List Nat → List Char
  | [] => []
  | [a] => [b64Char (a / 4), b64Char (a % 4 * 16), '=', '=']
  | [a, b] => [b64Char (a / 4), b64Char (a % 4 * 16 + b / 16), b64Char (b % 16 * 4), '=']
  | a :: b :: c :: rest =>
    b64Char (a / 4) :: b64Char (a % 4 * 16 + b / 16) :: b64Char (b % 16 * 4 + c / 64)
      :: b64Char (c % 64) :: base64Encode rest

/-- Standard base64 decoding (inverse of `base64Encode` on its image). -/
def base64Decode : List Char → List Nat
  | c1 :: c2 :: c3 :: c4 :: rest =>
    if c3 = '=' then [b64Index c1 * 4 + b64Index c2 / 16]
    else if c4 = '=' then
      [b64Index c1 * 4 + b64Index c2 / 16, b64Index c2 % 16 * 16 + b64Index c3 / 4]
    else
      (b64Index c1 * 4 + b64Index c2 / 16)
        :: (b64Index c2 % 16 * 16 + b64Index c3 / 4)
        :: (b64Index c3 % 4 * 64 + b64Index c4)
        :: base64Decode rest
  | _ => []

/-- Result of reading the audio assets (`./file.txt` and `./file.pcm`,
lines 332-339): both reads succeed, or some read throws (lines 386-392 catch
either failure). -/
inductive AssetResult where
  | ok (transcript : String) (pcmBytes : List Nat)
  | readError (msg : String)
deriving Repr, DecidableEq

/-- The fallback transcript of lines 395-396. -/
def simulatedTranscript : String :=
  "This is a simulated audio response because actual audio files weren\x27t found."

/-- One simulated filler chunk (lines 419-423): 40 bytes, each
`Math.floor(Math.random() * 256)`; the random source is the parameter
`rand`. -/
def simulatedChunk (rand : Nat → Nat → Fin 256) (i : Nat) : List Nat :=
  (List.range 40).map fun j => (rand i j).val

/-- One SSE write performed by the `/audio/chat/completions` handler.  The
base64 payload is carried as its character list.  `errorEvent` is the outer
catch (lines 457-459), never reached on the modelled paths. -/
inductive AudioEvent where
  | transcriptEvent (audioId : String) (transcript : String)
  | audioChunkEvent (audioId : String) (dataB64 : List Char)
  | errorEvent (msg : String)
  | done
deriving Repr, DecidableEq

/-- Result of the audio handler.  `hang` models the source loop of
`readPCMFile` never terminating (only possible with a zero chunk size). -/
inductive AudioResponse where
  | httpError (status : Nat) (detail : String)
  | sse (events : List AudioEvent)
  | hang
deriving Repr, DecidableEq

/-- The `POST /audio/chat/completions` handler (lines 291-461): validate
(identically to the others); with fixed `sampleRate = 16000` and
`durationMs = 40` (lines 329-330) read the transcript and the PCM chunks and
emit one transcript event then one audio event per chunk, base64-encoded,
all sharing `audioId` (lines 344-385); if reading either asset throws, emit
the fixed simulated transcript and exactly 5 simulated 40-byte chunks
(lines 394-443); either way terminate with the sentinel (line 447). -/
def audioChatCompletions (req : CompletionRequest) (assets : AssetResult)
    (audioId : String) (rand : Nat → Nat → Fin 256) : AudioResponse :=
  match validateRequest req with
  | some (s, d) => .httpError s d
  | none =>
    match assets with
    | .ok transcript pcm =>
      match readPCMFileChunks pcm 16000 40 with
      | none => .hang
      | some chunks =>
        .sse (.transcriptEvent audioId transcript
          :: chunks.map (fun ch => .audioChunkEvent audioId (base64Encode ch))
          ++ [.done])
    | .readError _ =>
      .sse (.transcriptEvent audioId simulatedTranscript
        :: (List.range 5).map
            (fun i => .audioChunkEvent audioId (base64Encode (simulatedChunk rand i)))
        ++ [.done])

/-! ### Supporting lemmas -/

/-- Ceil-division step used by `chunksOf_length`. -/
theorem ceilDiv_step (C n : Nat) (hC : 0 < C) (hn : 0 < n) :
    (n - C + C - 1) / C + 1 = (n + C - 1) / C := by
  have e2 : n + C - 1 = (n - 1) + C := by omega
  rw [e2, Nat.add_div_right _ hC]
  rcases Nat.lt_or_ge C n with hlt | hle
  · have e1 : n - C + C - 1 = (n - C - 1) + C := by omega
    have e3 : n - 1 = (n - C - 1) + C := by omega
    rw [e1, e3, Nat.add_div_right _ hC]
  · have e1 : n - C + C - 1 = C - 1 := by omega
    rw [e1, Nat.div_eq_of_lt (by omega), Nat.div_eq_of_lt (by omega)]

/-- The number of chunks produced by `chunksOf` is the ceiling of
`length / C`. -/
theorem chunksOf_length (C : Nat) (hC : 0 < C) (l : List Nat) :
    (chunksOf C l).length = (l.length + C - 1) / C := by
  suffices h : ∀ (n : Nat) (l : List Nat), l.length ≤ n →
      (chunksOf C l).length = (l.length + C - 1) / C from h l.length l le_rfl
  intro n
  induction n with
  | zero =>
    intro l hl
    have he : l = [] := List.eq_nil_of_length_eq_zero (by omega)
    subst he
    rw [chunksOf, dif_pos (Or.inr rfl)]
    simp [Nat.div_eq_of_lt (show C - 1 < C by omega)]
  | succ n ih =>
    intro l hl
    by_cases hg : C = 0 ∨ l = []
    · rcases hg with hg | hg
      · omega
      · subst hg
        rw [chunksOf, dif_pos (Or.inr rfl)]
        simp [Nat.div_eq_of_lt (show C - 1 < C by omega)]
    · push_neg at hg
      obtain ⟨hc, hne⟩ := hg
      have hlen : 0 < l.length := List.length_pos.mpr hne
      have hdrop : (l.drop C).length ≤ n := by
        simp only [List.length_drop]
        omega
      rw [chunksOf, dif_neg (by push_neg; exact ⟨hc, hne⟩)]
      rw [List.length_cons, ih _ hdrop, List.length_drop]
      exact ceilDiv_step C l.length hC hlen

/-- The `i`-th chunk of `chunksOf C l` is the byte range
`[i*C, min((i+1)*C, l.length))` of `l`, i.e. `(l.drop (i*C)).take C`. -/
theorem chunksOf_getElem (C : Nat) (hC : 0 < C) (l : List Nat) (i : Nat)
    (hi : i < (chunksOf C l).length) :
    (chunksOf C l)[i]? = some ((l.drop (i * C)).take C) := by
  suffices h : ∀ (n : Nat) (l : List Nat) (i : Nat), l.length ≤ n →
      i < (chunksOf C l).length →
      (chunksOf C l)[i]? = some ((l.drop (i * C)).take C) from h l.length l i le_rfl hi
  intro n
  induction n with
  | zero =>
    intro l i hl hi
    have he : l = [] := List.eq_nil_of_length_eq_zero (by omega)
    subst he
    rw [chunksOf, dif_pos (Or.inr rfl)] at hi
    simp at hi
  | succ n ih =>
    intro l i hl hi
    by_cases hg : C = 0 ∨ l = []
    · rcases hg with hg | hg
      · omega
      · subst hg
        rw [chunksOf, dif_pos (Or.inr rfl)] at hi
        simp at hi
    · push_neg at hg
      obtain ⟨hc, hne⟩ := hg
      rw [chunksOf, dif_neg (by push_neg; exact ⟨hc, hne⟩)] at hi ⊢
      match i with
      | 0 => simp
      | i + 1 =>
        rw [List.length_cons] at hi
        have hi' : i < (chunksOf C (l.drop C)).length := Nat.lt_of_succ_lt_succ hi
        have hdrop : (l.drop C).length ≤ n := by
          have : 0 < l.length := List.length_pos.mpr hne
          simp only [List.length_drop]
          omega
        rw [List.getElem?_cons_succ, ih _ i hdrop hi', List.drop_drop]
        have harith : C + i * C = (i + 1) * C := by ring
        rw [harith]

/-- With a positive chunk size and enough fuel, the source loop of
`readPCMFile` computes `chunksOf` of the remaining content. -/
theorem pcmChunkLoop_eq_chunksOf (content : List Nat) (C : Nat) (hC : 0 < C) :
    ∀ (fuel i : Nat) (acc : List (List Nat)), content.length - i < fuel →
    pcmChunkLoop content C fuel i acc = some (acc ++ chunksOf C (content.drop i))
  | 0, _, _, h => absurd h (by omega)
  | fuel + 1, i, acc, h => by
    rw [pcmChunkLoop]
    split
    · next hi =>
      have ih := pcmChunkLoop_eq_chunksOf content C hC fuel (i + C)
        (acc ++ [(content.drop i).take C]) (by omega)
      rw [ih]
      have hne : content.drop i ≠ [] := by
        apply List.ne_nil_of_length_pos
        simp only [List.length_drop]
        omega
      conv_rhs => rw [chunksOf]
      rw [dif_neg (by push_neg; exact ⟨by omega, hne⟩)]
      simp [List.drop_drop, Nat.add_comm]
    · next hi =>
      have hd : content.drop i = [] := List.drop_eq_nil_of_le (by omega)
      rw [hd, chunksOf]
      simp

/-- `readPCMFile` at the handler's fixed parameters: the chunk size is
`1280` and the loop terminates with the `chunksOf` chunk list. -/
theorem readPCMFileChunks_eq (content : List Nat) :
    readPCMFileChunks content 16000 40 = some (chunksOf 1280 content) := by
  have h : chunkSizeOf 16000 40 = 1280 := by norm_num [chunkSizeOf]
  rw [readPCMFileChunks, h]
  simpa using
    pcmChunkLoop_eq_chunksOf content 1280 (by norm_num) (content.length + 1) 0 [] (by omega)

/-- With a zero chunk size and nonempty content, the source loop of
`readPCMFile` never finishes, whatever the fuel: the index stays `0`. -/
theorem pcmChunkLoop_zero_stuck (content : List Nat) (hne : content ≠ []) :
    ∀ (fuel : Nat) (acc : List (List Nat)), pcmChunkLoop content 0 fuel 0 acc = none
  | 0, _ => rfl
  | fuel + 1, acc => by
    rw [pcmChunkLoop]
    rw [if_pos (List.length_pos.mpr hne)]
    exact pcmChunkLoop_zero_stuck content hne fuel _

/-- Decoding a base64 digit undoes encoding, for every 6-bit value. -/
theorem b64Index_b64Char : ∀ n : Nat, n < 64 → b64Index (b64Char n) = n := by
  decide

/-- No base64 digit is the padding character. -/
theorem b64Char_ne_pad : ∀ n : Nat, n < 64 → b64Char n ≠ '=' := by
  decide

/-- `base64Decode` is a left inverse of `base64Encode` on byte lists. -/
theorem base64_roundtrip : ∀ l : List Nat, (∀ b ∈ l, b < 256) →
    base64Decode (base64Encode l) = l
  | [], _ => rfl
  | [a], h => by
    have ha : a < 256 := h a (by simp)
    rw [base64Encode, base64Decode, if_pos rfl]
    rw [b64Index_b64Char _ (by omega), b64Index_b64Char _ (by omega)]
    have : a / 4 * 4 + a % 4 * 16 / 16 = a := by omega
    rw [this]
  | [a, b], h => by
    have ha : a < 256 := h a (by simp)
    have hb : b < 256 := h b (by simp)
    rw [base64Encode, base64Decode]
    rw [if_neg (b64Char_ne_pad _ (by omega)), if_pos rfl]
    rw [b64Index_b64Char _ (by omega), b64Index_b64Char _ (by omega),
      b64Index_b64Char _ (by omega)]
    have e1 : a / 4 * 4 + (a % 4 * 16 + b / 16) / 16 = a := by omega
    have e2 : (a % 4 * 16 + b / 16) % 16 * 16 + b % 16 * 4 / 4 = b := by omega
    rw [e1, e2]
  | a :: b :: c :: rest, h => by
    have ha : a < 256 := h a (by simp)
    have hb : b < 256 := h b (by simp)
    have hc : c < 256 := h c (by simp)
    rw [base64Encode, base64Decode]
    rw [if_neg (b64Char_ne_pad _ (by omega)), if_neg (b64Char_ne_pad _ (by omega))]
    rw [b64Index_b64Char _ (by omega), b64Index_b64Char _ (by omega),
      b64Index_b64Char _ (by omega), b64Index_b64Char _ (by omega)]
    have e1 : a / 4 * 4 + (a % 4 * 16 + b / 16) / 16 = a := by omega
    have e2 : (a % 4 * 16 + b / 16) % 16 * 16 + (b % 16 * 4 + c / 64) / 4 = b := by omega
    have e3 : (b % 16 * 4 + c / 64) % 4 * 64 + c % 64 = c := by omega
    rw [e1, e2, e3]
    have ih := base64_roundtrip rest (fun x hx => h x (by simp [hx]))
    rw [ih]

/-! ### Claim theorems -/

/-- C6: for every retrieved context string and every original message list,
the augmented list passed upstream is exactly one newly constructed
system-role message embedding the context, followed by all original
messages unchanged and in order, none removed, merged or modified. -/
theorem C6_refactMessages_prepends (context : String) (messages : List Message) :
    (refactMessages context messages).length = messages.length + 1
    ∧ (∃ m0 : Message, refactMessages context messages = m0 :: messages
        ∧ m0.role = "system"
        ∧ m0.content = "You have access to the following knowledge: " ++ context
            ++ ". Answer questions using this data.")
    ∧ ∀ i : Nat, (refactMessages context messages)[i + 1]? = messages[i]? := by
  refine ⟨by simp [refactMessages], ⟨_, rfl, rfl, rfl⟩, fun i => ?_⟩
  simp [refactMessages]

/-- C3: a request lacking `messages`, or with `stream` equal to `false`, is
answered by each of the three completion endpoints with HTTP 400 and a JSON
`detail` body; the response is the plain-HTTP error path, so no SSE headers
or events are produced. -/
theorem C3_validation_rejects (req : CompletionRequest)
    (u : UpstreamRequest → UpstreamOutcome) (pick : Fin 3) (assets : AssetResult)
    (audioId : String) (rand : Nat → Nat → Fin 256)
    (h : req.messages = none ∨ req.stream = some false) :
    ∃ d : String,
      chatCompletions req u = .httpError 400 d
      ∧ ragChatCompletions req pick u = .httpError 400 d
      ∧ audioChatCompletions req assets audioId rand = .httpError 400 d := by
  cases hm : req.messages with
  | none =>
    exact ⟨"Missing messages in request body",
      by simp [chatCompletions, validateRequest, hm],
      by simp [ragChatCompletions, validateRequest, hm],
      by simp [audioChatCompletions, validateRequest, hm]⟩
  | some ms =>
    rcases h with h | h
    · rw [hm] at h; cases h
    · exact ⟨"chat completions require streaming",
        by simp [chatCompletions, validateRequest, hm, h],
        by simp [ragChatCompletions, validateRequest, hm, h],
        by simp [audioChatCompletions, validateRequest, hm, h]⟩

/-- Witness for C3 at a concrete request with no `messages` field. -/
theorem C3_validation_rejects_witness :
    ∃ d : String,
      chatCompletions ⟨none, none, none, none, none, none⟩
          (fun _ => .streamResult [] none) = .httpError 400 d
      ∧ ragChatCompletions ⟨none, none, none, none, none, none⟩ 0
          (fun _ => .streamResult [] none) = .httpError 400 d
      ∧ audioChatCompletions ⟨none, none, none, none, none, none⟩
          (.readError "ENOENT") "aid" (fun _ _ => 0) = .httpError 400 d :=
  C3_validation_rejects ⟨none, none, none, none, none, none⟩
    (fun _ => .streamResult [] none) 0 (.readError "ENOENT") "aid" (fun _ _ => 0)
    (Or.inl rfl)

/-- C10: a request with `messages` present and `stream` absent passes
validation on all three endpoints — the destructuring default makes
`stream` true — and each handler proceeds to the SSE stream instead of
returning HTTP 400. -/
theorem C10_stream_defaults_true (req : CompletionRequest) (ms : List Message)
    (hm : req.messages = some ms) (hs : req.stream = none)
    (chunks : List Chunk) (pick : Fin 3) (audioId : String)
    (rand : Nat → Nat → Fin 256) :
    validateRequest req = none
    ∧ chatCompletions req (fun _ => .streamResult chunks none)
        = .sse (chunks.map .data ++ [.done])
    ∧ (∃ tr, ragChatCompletions req pick (fun _ => .streamResult chunks none) = .sse tr)
    ∧ (∃ evs, audioChatCompletions req (.readError "ENOENT") audioId rand = .sse evs) := by
  have hv : validateRequest req = none := by
    simp [validateRequest, hm, hs]
  refine ⟨hv, ?_, ?_, ?_⟩
  · simp [chatCompletions, hv, relayOutcome]
  · exact ⟨_, by rw [ragChatCompletions, hv]⟩
  · exact ⟨_, by rw [audioChatCompletions, hv]⟩

/-- Witness for C10 at a concrete request omitting `stream`. -/
theorem C10_stream_defaults_true_witness :
    validateRequest ⟨none, some [⟨"user", "hi"⟩], none, none, none, none⟩ = none
    ∧ chatCompletions ⟨none, some [⟨"user", "hi"⟩], none, none, none, none⟩
        (fun _ => .streamResult ["c1"] none)
        = .sse (["c1"].map .data ++ [.done])
    ∧ (∃ tr, ragChatCompletions ⟨none, some [⟨"user", "hi"⟩], none, none, none, none⟩ 0
        (fun _ => .streamResult ["c1"] none) = .sse tr)
    ∧ (∃ evs, audioChatCompletions ⟨none, some [⟨"user", "hi"⟩], none, none, none, none⟩
        (.readError "ENOENT") "aid" (fun _ _ => 0) = .sse evs) :=
  C10_stream_defaults_true ⟨none, some [⟨"user", "hi"⟩], none, none, none, none⟩
    [⟨"user", "hi"⟩] rfl rfl ["c1"] 0 "aid" (fun _ _ => 0)

/-- C1: for a validated request whose upstream stream yields `chunks` and
ends cleanly, the response is the SSE stream of exactly one `data:` event
per chunk, in arrival order, then exactly one `[DONE]` sentinel, and
nothing after it; the wire frames are the `data: <json>\n\n` lines. -/
theorem C1_stream_relay (req : CompletionRequest) (ms : List Message)
    (hm : req.messages = some ms) (hs : req.stream.getD true = true)
    (u : UpstreamRequest → UpstreamOutcome) (chunks : List Chunk)
    (hu : u (upstreamCallArgs "gpt-4o-mini" req ms) = .streamResult chunks none) :
    chatCompletions req u = .sse (chunks.map .data ++ [.done])
    ∧ (chunks.map SSEWrite.data ++ [SSEWrite.done]).length = chunks.length + 1
    ∧ (chunks.map SSEWrite.data ++ [SSEWrite.done]).count .done = 1
    ∧ (chunks.map SSEWrite.data ++ [SSEWrite.done]).map sseFrame
        = chunks.map (fun c => "data: " ++ c ++ "\n\n") ++ ["data: [DONE]\n\n"] := by
  have hv : validateRequest req = none := by
    simp [validateRequest, hm, hs]
  refine ⟨?_, by simp, ?_, ?_⟩
  · rw [chatCompletions, hv]
    rw [hm]
    show relayOutcome (u (upstreamCallArgs "gpt-4o-mini" req ms)) = _
    rw [hu, relayOutcome]
  · have hz : (chunks.map SSEWrite.data).count SSEWrite.done = 0 :=
      List.count_eq_zero.mpr (by simp)
    simp [List.count_append, hz]
  · simp [sseFrame]

/-- Witness for C1: two upstream chunks produce exactly three events. -/
theorem C1_stream_relay_witness :
    chatCompletions ⟨some "gpt-4o-mini", some [⟨"user", "hi"⟩], none, none, none, some true⟩
        (fun _ => .streamResult ["chunk1", "chunk2"] none)
      = .sse (["chunk1", "chunk2"].map .data ++ [.done])
    ∧ (["chunk1", "chunk2"].map SSEWrite.data ++ [SSEWrite.done]).length
        = (["chunk1", "chunk2"] : List Chunk).length + 1
    ∧ (["chunk1", "chunk2"].map SSEWrite.data ++ [SSEWrite.done]).count .done = 1
    ∧ (["chunk1", "chunk2"].map SSEWrite.data ++ [SSEWrite.done]).map sseFrame
        = ["chunk1", "chunk2"].map (fun c => "data: " ++ c ++ "\n\n")
            ++ ["data: [DONE]\n\n"] :=
  C1_stream_relay ⟨some "gpt-4o-mini", some [⟨"user", "hi"⟩], none, none, none, some true⟩
    [⟨"user", "hi"⟩] rfl rfl (fun _ => .streamResult ["chunk1", "chunk2"] none)
    ["chunk1", "chunk2"] rfl

/-- C2 counterexample: a validated `/chat/completions` request whose
upstream call fails at open time — before any chunk was forwarded — is
answered with HTTP status 500, not with an in-band SSE error event:
`res.headersSent` is still false because `setHeader` alone flushes
nothing. -/
theorem C2_counterexample :
    chatCompletions ⟨none, some [⟨"user", "hi"⟩], none, none, none, some true⟩
        (fun _ => .openError "upstream connection failed")
      = .httpError 500 "upstream connection failed" := rfl

/-- C2 amended: after validation, a failure occurring once at least one
chunk has been forwarded is emitted as one in-band SSE `\x7berror\x7d` event
followed by `[DONE]`; a failure before anything was written — the upstream
open failing, or the stream failing before its first chunk — is returned as
HTTP 500 with a JSON `detail` body. -/
theorem C2_post_validation_errors (req : CompletionRequest) (ms : List Message)
    (hm : req.messages = some ms) (hs : req.stream.getD true = true)
    (emsg : String) (chunks : List Chunk) (hne : chunks ≠ []) :
    chatCompletions req (fun _ => .streamResult chunks (some emsg))
      = .sse (chunks.map .data ++ [.errorEvent emsg, .done])
    ∧ chatCompletions req (fun _ => .openError emsg) = .httpError 500 emsg
    ∧ chatCompletions req (fun _ => .streamResult [] (some emsg))
      = .httpError 500 emsg := by
  have hv : validateRequest req = none := by
    simp [validateRequest, hm, hs]
  refine ⟨?_, ?_, ?_⟩ <;>
    simp [chatCompletions, hv, relayOutcome, List.isEmpty_iff, hne]

/-- Witness for C2 amended: one forwarded chunk, then an upstream error. -/
theorem C2_post_validation_errors_witness :
    chatCompletions ⟨none, some [⟨"user", "hi"⟩], none, none, none, some true⟩
        (fun _ => .streamResult ["chunk1"] (some "boom"))
      = .sse (["chunk1"].map .data ++ [.errorEvent "boom", .done])
    ∧ chatCompletions ⟨none, some [⟨"user", "hi"⟩], none, none, none, some true⟩
        (fun _ => .openError "boom") = .httpError 500 "boom"
    ∧ chatCompletions ⟨none, some [⟨"user", "hi"⟩], none, none, none, some true⟩
        (fun _ => .streamResult [] (some "boom")) = .httpError 500 "boom" :=
  C2_post_validation_errors ⟨none, some [⟨"user", "hi"⟩], none, none, none, some true⟩
    [⟨"user", "hi"⟩] rfl rfl "boom" ["chunk1"] (by simp)

/-- C9 counterexample: with an empty `tools` array (JS-truthy) and a
`tool_choice`, the upstream call receives both — the claim says they are
omitted unless `tools` is non-empty. -/
theorem C9_counterexample :
    (upstreamCallArgs "gpt-4o-mini"
        ⟨none, some [⟨"user", "hi"⟩], some [], some "auto", none, some true⟩
        [⟨"user", "hi"⟩]).tools = some []
    ∧ (upstreamCallArgs "gpt-4o-mini"
        ⟨none, some [⟨"user", "hi"⟩], some [], some "auto", none, some true⟩
        [⟨"user", "hi"⟩]).tool_choice = some "auto" :=
  ⟨rfl, rfl⟩

/-- C9 amended: for every request, endpoint default model and message list,
the upstream call receives the request's model (with the endpoint default
applied), the given messages, `response_format` passed through, and its
streaming flag forced to true; `tools` is passed through exactly as
present — JS truthiness makes `tools ? tools : undefined` the identity, so
an empty array is passed, not omitted — and `tool_choice` is passed through
when `tools` is present and `tool_choice` is truthy (a nonempty string),
and omitted otherwise. -/
theorem C9_upstream_args (defaultModel : String) (req : CompletionRequest)
    (ms : List Message) :
    (upstreamCallArgs defaultModel req ms).stream = true
    ∧ (upstreamCallArgs defaultModel req ms).model = req.model.getD defaultModel
    ∧ (upstreamCallArgs defaultModel req ms).messages = ms
    ∧ (upstreamCallArgs defaultModel req ms).response_format = req.response_format
    ∧ (upstreamCallArgs defaultModel req ms).tools = req.tools
    ∧ (truthyArr req.tools = true → truthyStr req.tool_choice = true →
        (upstreamCallArgs defaultModel req ms).tool_choice = req.tool_choice)
    ∧ (truthyArr req.tools = false ∨ truthyStr req.tool_choice = false →
        (upstreamCallArgs defaultModel req ms).tool_choice = none) := by
  refine ⟨rfl, rfl, rfl, rfl, ?_, ?_, ?_⟩
  · cases ht : req.tools with
    | none => simp [upstreamCallArgs, truthyArr, ht]
    | some ts => simp [upstreamCallArgs, truthyArr, ht]
  · intro h1 h2
    simp [upstreamCallArgs, h1, h2]
  · intro h
    rcases h with h | h <;> simp [upstreamCallArgs, h]

/-- Witness for C9 amended at a concrete request with one tool and a truthy
`tool_choice`, discharging both hypotheses of the passthrough conjunct. -/
theorem C9_upstream_args_witness :
    truthyArr (⟨some "m", some [⟨"user", "hi"⟩], some ["t1"], some "auto",
        some "json", some true⟩ : CompletionRequest).tools = true
    ∧ truthyStr (⟨some "m", some [⟨"user", "hi"⟩], some ["t1"], some "auto",
        some "json", some true⟩ : CompletionRequest).tool_choice = true
    ∧ (upstreamCallArgs "gpt-4o-mini"
        ⟨some "m", some [⟨"user", "hi"⟩], some ["t1"], some "auto", some "json", some true⟩
        [⟨"user", "hi"⟩]).stream = true
    ∧ (upstreamCallArgs "gpt-4o-mini"
        ⟨some "m", some [⟨"user", "hi"⟩], some ["t1"], some "auto", some "json", some true⟩
        [⟨"user", "hi"⟩]).tools
        = (⟨some "m", some [⟨"user", "hi"⟩], some ["t1"], some "auto", some "json",
            some true⟩ : CompletionRequest).tools
    ∧ (upstreamCallArgs "gpt-4o-mini"
        ⟨some "m", some [⟨"user", "hi"⟩], some ["t1"], some "auto", some "json", some true⟩
        [⟨"user", "hi"⟩]).tool_choice
        = (⟨some "m", some [⟨"user", "hi"⟩], some ["t1"], some "auto", some "json",
            some true⟩ : CompletionRequest).tool_choice := by
  have T := C9_upstream_args "gpt-4o-mini"
    ⟨some "m", some [⟨"user", "hi"⟩], some ["t1"], some "auto", some "json", some true⟩
    [⟨"user", "hi"⟩]
  exact ⟨rfl, by decide, T.1, T.2.2.2.2.1, T.2.2.2.2.2.1 rfl (by decide)⟩

/-- C5: for every validated RAG request, the first SSE event is the
synthetic assistant-role waiting message — its content one of the fixed
filler phrases, its `finish_reason` null — and it is written strictly
before the retrieval call and before the upstream call begin. -/
theorem C5_waiting_message_first (req : CompletionRequest) (ms : List Message)
    (hm : req.messages = some ms) (hs : req.stream.getD true = true)
    (pick : Fin 3) (u : UpstreamRequest → UpstreamOutcome) :
    ∃ (rest : List RagStep) (ur : UpstreamRequest),
      ragChatCompletions req pick u
        = .sse (.sseWrite (.waiting (waitingMessage pick)) :: .retrieve ms
            :: .upstreamOpen ur :: rest)
      ∧ (waitingMessage pick).content ∈ waitingMessages
      ∧ (waitingMessage pick).role = "assistant"
      ∧ (waitingMessage pick).finish_reason = none := by
  have hv : validateRequest req = none := by
    simp [validateRequest, hm, hs]
  have hmem : (waitingMessage pick).content ∈ waitingMessages := by
    fin_cases pick <;> simp [waitingMessage, waitingMessages]
  simp only [ragChatCompletions, hv, hm, Option.getD_some]
  exact ⟨_, _, rfl, hmem, rfl, rfl⟩

/-- Witness for C5 at a concrete request and filler pick. -/
theorem C5_waiting_message_first_witness :
    ∃ (rest : List RagStep) (ur : UpstreamRequest),
      ragChatCompletions ⟨none, some [⟨"user", "hi"⟩], none, none, none, some true⟩ 1
          (fun _ => .streamResult ["chunk1"] none)
        = .sse (.sseWrite (.waiting (waitingMessage 1)) :: .retrieve [⟨"user", "hi"⟩]
            :: .upstreamOpen ur :: rest)
      ∧ (waitingMessage 1).content ∈ waitingMessages
      ∧ (waitingMessage 1).role = "assistant"
      ∧ (waitingMessage 1).finish_reason = none :=
  C5_waiting_message_first ⟨none, some [⟨"user", "hi"⟩], none, none, none, some true⟩
    [⟨"user", "hi"⟩] rfl rfl 1 (fun _ => .streamResult ["chunk1"] none)

/-- C4: for a validated audio request with both assets present, the chunk
size at the handler's fixed `sampleRate = 16000`, `durationMs = 40` is
`1280`, the response is the transcript event followed by exactly
`ceil(S / 1280)` audio-chunk events and the sentinel, and the `i`-th
payload base64-decodes to exactly the byte range
`[i*1280, min((i+1)*1280, S))` of the asset, in order. -/
theorem C4_audio_chunk_ranges (req : CompletionRequest) (ms : List Message)
    (hm : req.messages = some ms) (hs : req.stream.getD true = true)
    (t : String) (content : List Nat) (hb : ∀ b ∈ content, b < 256)
    (audioId : String) (rand : Nat → Nat → Fin 256) :
    chunkSizeOf 16000 40 = 1280
    ∧ ∃ audioEvs : List AudioEvent,
      audioChatCompletions req (.ok t content) audioId rand
        = .sse (.transcriptEvent audioId t :: audioEvs ++ [.done])
      ∧ audioEvs.length = (content.length + 1280 - 1) / 1280
      ∧ ∀ i : Nat, i < audioEvs.length →
          ∃ payload : List Char,
            audioEvs[i]? = some (.audioChunkEvent audioId payload)
            ∧ base64Decode payload = (content.drop (i * 1280)).take 1280 := by
  have hv : validateRequest req = none := by
    simp [validateRequest, hm, hs]
  refine ⟨rfl,
    (chunksOf 1280 content).map
      (fun ch => .audioChunkEvent audioId (base64Encode ch)), ?_, ?_, ?_⟩
  · simp only [audioChatCompletions, hv, readPCMFileChunks_eq]
  · rw [List.length_map, chunksOf_length 1280 (by norm_num)]
  · intro i hi
    rw [List.length_map] at hi
    refine ⟨base64Encode ((content.drop (i * 1280)).take 1280), ?_, ?_⟩
    · rw [List.getElem?_map, chunksOf_getElem 1280 (by norm_num) content i hi]
      rfl
    · exact base64_roundtrip _
        (fun b hbm => hb b (List.mem_of_mem_drop (List.mem_of_mem_take hbm)))

/-- Witness for C4: a 3-byte asset yields one chunk whose payload decodes
back to the asset bytes. -/
theorem C4_audio_chunk_ranges_witness :
    chunkSizeOf 16000 40 = 1280
    ∧ ∃ audioEvs : List AudioEvent,
      audioChatCompletions ⟨none, some [⟨"user", "hi"⟩], none, none, none, some true⟩
          (.ok "transcript" [10, 20, 30]) "aid" (fun _ _ => 0)
        = .sse (.transcriptEvent "aid" "transcript" :: audioEvs ++ [.done])
      ∧ audioEvs.length = (([10, 20, 30] : List Nat).length + 1280 - 1) / 1280
      ∧ ∀ i : Nat, i < audioEvs.length →
          ∃ payload : List Char,
            audioEvs[i]? = some (.audioChunkEvent "aid" payload)
            ∧ base64Decode payload
              = (([10, 20, 30] : List Nat).drop (i * 1280)).take 1280 :=
  C4_audio_chunk_ranges ⟨none, some [⟨"user", "hi"⟩], none, none, none, some true⟩
    [⟨"user", "hi"⟩] rfl rfl "transcript" [10, 20, 30] (by decide) "aid" (fun _ _ => 0)

/-- C7: for a validated audio request where reading either asset fails, the
handler recovers locally: the fixed simulated transcript event, then
exactly 5 filler audio-chunk events, then the sentinel — no error event and
no HTTP error status. -/
theorem C7_audio_fallback (req : CompletionRequest) (ms : List Message)
    (hm : req.messages = some ms) (hs : req.stream.getD true = true)
    (emsg audioId : String) (rand : Nat → Nat → Fin 256) :
    audioChatCompletions req (.readError emsg) audioId rand
      = .sse [.transcriptEvent audioId simulatedTranscript,
          .audioChunkEvent audioId (base64Encode (simulatedChunk rand 0)),
          .audioChunkEvent audioId (base64Encode (simulatedChunk rand 1)),
          .audioChunkEvent audioId (base64Encode (simulatedChunk rand 2)),
          .audioChunkEvent audioId (base64Encode (simulatedChunk rand 3)),
          .audioChunkEvent audioId (base64Encode (simulatedChunk rand 4)),
          .done] := by
  have hv : validateRequest req = none := by
    simp [validateRequest, hm, hs]
  simp only [audioChatCompletions, hv]
  rfl

/-- Witness for C7 at a concrete request and random source. -/
theorem C7_audio_fallback_witness :
    audioChatCompletions ⟨none, some [⟨"user", "hi"⟩], none, none, none, some true⟩
        (.readError "ENOENT") "aid" (fun _ _ => 7)
      = .sse [.transcriptEvent "aid" simulatedTranscript,
          .audioChunkEvent "aid" (base64Encode (simulatedChunk (fun _ _ => 7) 0)),
          .audioChunkEvent "aid" (base64Encode (simulatedChunk (fun _ _ => 7) 1)),
          .audioChunkEvent "aid" (base64Encode (simulatedChunk (fun _ _ => 7) 2)),
          .audioChunkEvent "aid" (base64Encode (simulatedChunk (fun _ _ => 7) 3)),
          .audioChunkEvent "aid" (base64Encode (simulatedChunk (fun _ _ => 7) 4)),
          .done] :=
  C7_audio_fallback ⟨none, some [⟨"user", "hi"⟩], none, none, none, some true⟩
    [⟨"user", "hi"⟩] rfl rfl "ENOENT" "aid" (fun _ _ => 7)

/-- C8 counterexample: at `sampleRate = 0` the computed chunk size is `0`,
and the chunking of a nonempty file raises no `ValidationError` — the
source loop simply never finishes (here: not within `length + 1`
iterations; `C8_no_zero_chunk_guard` shows no amount of fuel finishes). -/
theorem C8_counterexample :
    chunkSizeOf 0 40 = 0
    ∧ readPCMFileChunks [1, 2, 3] 0 40 = none :=
  ⟨rfl, rfl⟩

/-- C8 amended: `readPCMFile` performs no chunk-size validation: when the
computed chunk size is zero and the file is nonempty, its loop never
terminates (no `ValidationError` is raised).  In the handler this is
unreachable: the fixed `sampleRate = 16000`, `durationMs = 40` give chunk
size `1280`, never zero. -/
theorem C8_no_zero_chunk_guard (content : List Nat) (hne : content ≠ [])
    (fuel : Nat) (acc : List (List Nat)) :
    chunkSizeOf 16000 40 = 1280
    ∧ pcmChunkLoop content 0 fuel 0 acc = none :=
  ⟨rfl, pcmChunkLoop_zero_stuck content hne fuel acc⟩

/-- Witness for C8 amended at a concrete nonempty file. -/
theorem C8_no_zero_chunk_guard_witness :
    chunkSizeOf 16000 40 = 1280
    ∧ pcmChunkLoop [1, 2, 3] 0 5 0 [] = none :=
  C8_no_zero_chunk_guard [1, 2, 3] (by simp) 5 []

end CustomLLM
